import Mathlib

/-!
Shallow embedding of `punch_clock.py`, a single-user punch clock.

The Python module stores punches in a pandas `DataFrame` with columns
`In` and `Out`.  Cells are timestamps (whole seconds since the epoch)
or missing (NaN).  Rows carry pandas index labels, and the labels
matter: `punch_in` assigns via `self._frame.loc[-1] = [now, None]`
(label `-1`), while `punch_out` assigns via
`self._frame.loc[last_idx, "Out"] = now` where
`last_idx = shape[0] - 1` is also a label, not a position.  Pandas
`.loc` replaces the row with the given label when it exists and
appends a new row (other cells missing) when it does not, which pandas
documents as setting with enlargement.  We model rows with explicit
integer labels to capture this behaviour.
-/

namespace punch_clock

/-- The enum `State` from `punch_clock.py`: a clocked state. -/
inductive State where
  | IN
  | OUT
deriving DecidableEq

/-- One row of the punch-log frame: a pandas index label plus the
`In` and `Out` cells, with `none` standing for a missing value. -/
structure Row where
  label : Int
  inT : Option Int
  outT : Option Int
deriving DecidableEq

/-- Pandas `df.loc[lbl] = [a, b]`: replace every row carrying label
`lbl` when one exists, otherwise append a fresh row with that label. -/
def locSetRow (f : List Row) (lbl : Int) (a b : Option Int) : List Row :=
  if f.any (fun r => r.label = lbl) then
    f.map (fun r => if r.label = lbl then ⟨r.label, a, b⟩ else r)
  else
    f ++ [⟨lbl, a, b⟩]

/-- Pandas `df.loc[lbl, "Out"] = v`: set the `Out` cell of the row
carrying label `lbl` when it exists, otherwise append a fresh row with
that label whose `In` cell is missing (setting with enlargement). -/
def locSetOut (f : List Row) (lbl : Int) (v : Int) : List Row :=
  if f.any (fun r => r.label = lbl) then
    f.map (fun r => if r.label = lbl then ⟨r.label, r.inT, some v⟩ else r)
  else
    f ++ [⟨lbl, none, some v⟩]

/-- The state derivation in `PunchClock.__init__` (lines 77 to 82):
`IN` when the `Out` column is non-empty and its positionally last
entry is null, `OUT` otherwise. -/
def derivedState (f : List Row) : State :=
  match f.getLast? with
  | some r => if r.outT = none then State.IN else State.OUT
  | none => State.OUT

/-- The in-memory punch clock: the data frame `_frame` and the stored
`_state` attribute (exposed through the `state` property). -/
structure PunchClock where
  frame : List Row
  state : State
deriving DecidableEq

/-- What `pd.read_csv(log_path)` can produce for `__init__`: the file
is missing (`FileNotFoundError`), blank (`pd.errors.EmptyDataError`),
or parses into a frame with the given column names and rows, each row
giving the cells of the `In` and `Out` columns. -/
inductive ReadResult where
  | missing
  | emptyData
  | parsed (cols : List String) (rows : List (Option Int × Option Int))

/-- `pd.read_csv` labels the parsed rows `0, 1, 2, ...`. -/
def labelRowsFrom (i : Nat) : List (Option Int × Option Int) → List Row
  | [] => []
  | p :: t => ⟨(i : Int), p.1, p.2⟩ :: labelRowsFrom (i + 1) t

/-- The frame produced by loading a parsed table. -/
def labelRows (rows : List (Option Int × Option Int)) : List Row :=
  labelRowsFrom 0 rows

/-- `PunchClock.reset` (lines 135 to 138): empty frame, state `OUT`. -/
def PunchClock.reset (_c : PunchClock) : PunchClock :=
  ⟨[], State.OUT⟩

/-- `PunchClock.__init__` (lines 73 to 83).  A missing or blank file
is caught and replaced by `reset()`.  A file that parses but lacks the
`Out` column raises `KeyError` at `self._frame[State.OUT.value]` on
line 77, modelled as `Except.error`.  Otherwise the stored state is
derived from the positionally last entry of the `Out` column. -/
def PunchClock.init (r : ReadResult) : Except String PunchClock :=
  match r with
  | .missing => .ok ⟨[], derivedState []⟩
  | .emptyData => .ok ⟨[], derivedState []⟩
  | .parsed cols rows =>
      if cols.contains "Out" then
        .ok ⟨labelRows rows, derivedState (labelRows rows)⟩
      else
        .error "KeyError: Out"

/-- `PunchClock.punch_in` (lines 103 to 108): when clocked out, assign
`self._frame.loc[-1] = [now, None]` and set the state to `IN`. -/
def PunchClock.punch_in (c : PunchClock) (now : Int) : PunchClock :=
  if c.state = State.OUT then
    ⟨locSetRow c.frame (-1) (some now) none, State.IN⟩
  else
    c

/-- `PunchClock.punch_out` (lines 110 to 116): when clocked in,
assign `self._frame.loc[self._frame.shape[0] - 1, "Out"] = now` and
set the state to `OUT`. -/
def PunchClock.punch_out (c : PunchClock) (now : Int) : PunchClock :=
  if c.state = State.IN then
    ⟨locSetOut c.frame ((c.frame.length : Int) - 1) now, State.OUT⟩
  else
    c

/-- The series sum `(self._frame["Out"] - self._frame["In"]).sum()`
from `PunchClock.sum`: rows where either cell is missing contribute
NaN to the difference series, and `Series.sum` skips NaN entries, so
only rows with both cells present contribute `out - in`.  An empty or
all-NaN series sums to 0, and the `_NULL_REPLACEMENT` branch of the
code also yields 0. -/
def sumCommitted (f : List Row) : Int :=
  f.foldl
    (fun acc r =>
      match r.inT, r.outT with
      | some a, some b => acc + (b - a)
      | _, _ => acc)
    0

/-- `self._frame[State.IN.value].iloc[-1]`: the `In` cell of the
positionally last row; `none` when the frame is empty, where Python
raises `IndexError`. -/
def lastIn (f : List Row) : Option Int :=
  match f.getLast? with
  | some r => r.inT
  | none => none

/-- `PunchClock.sum` (lines 118 to 133), as total elapsed whole
seconds.  When clocked in, `now - clocked_in` of the positionally last
row is added; `none` models the raise paths (`IndexError` on an empty
frame, `int` of NaN) that a clocked-in clock with no usable last `In`
cell would hit.  The method reads the frame and the state and mutates
neither, so it is a pure function of the clock and the current time. -/
def PunchClock.sum (c : PunchClock) (now : Int) : Option Int :=
  if c.state = State.IN then
    match lastIn c.frame with
    | some t => some (sumCommitted c.frame + (now - t))
    | none => none
  else
    some (sumCommitted c.frame)

/-- The `%02d` rendering used for the normalized minute and second
fields, which lie in `[0, 60)`. -/
def pad2 (n : Int) : String :=
  if 0 ≤ n ∧ n < 10 then "0" ++ toString n else toString n

/-- `str(datetime.timedelta(seconds=t))`.  The constructor normalizes
`t` into `days = t // 86400` and a remainder in `[0, 86400)`; the
string rendering prints `H:MM:SS` from the remainder, so the hour
field is always between 0 and 23, and prefixes `D day, ` or
`D days, ` whenever `days` is non-zero.  Lean division and remainder
on `Int` agree with Python floor division for the positive divisors
used here. -/
def timedeltaStr (t : Int) : String :=
  (if t / 86400 = 0 then ""
   else
     toString (t / 86400) ++ " day"
       ++ (if (t / 86400).natAbs = 1 then "" else "s") ++ ", ")
  ++ toString (t % 86400 / 60 / 60) ++ ":"
  ++ pad2 (t % 86400 / 60 % 60) ++ ":"
  ++ pad2 (t % 86400 % 60)

/-- The duration format the specification describes: a plain
hours:minutes:seconds rendering of the total with no days component,
so the hour field may exceed 24.  Stated from the words of the
specification, for comparison with `timedeltaStr`. -/
def specHmsStr (t : Int) : String :=
  toString (t / 3600) ++ ":" ++ pad2 (t % 3600 / 60) ++ ":" ++ pad2 (t % 60)

/-- `self.state.value.lower()` in `main`. -/
def stateLower : State → String
  | State.IN => "in"
  | State.OUT => "out"

/-- `_MESSAGE_TEMPLATE.substitute(time=..., state=...)` from lines
148 to 150, the one line `main` prints. -/
def message (workSeconds : Int) (s : State) : String :=
  "You have worked " ++ timedeltaStr workSeconds ++ "; you are clocked "
    ++ stateLower s ++ "."

/-- The parsed command-line flags of `main`; the argument group makes
them mutually exclusive. -/
structure Args where
  in_ : Bool
  out : Bool
  reset : Bool

/-- The flag dispatch inside the `with` block of `main`: at most one
mutation is applied to the freshly constructed clock. -/
def applyFlags (c0 : PunchClock) (args : Args) (now : Int) : PunchClock :=
  if args.in_ then c0.punch_in now
  else if args.out then c0.punch_out now
  else if args.reset then c0.reset
  else c0

/-- `main` (lines 153 to 181): construct the clock from the log file,
apply at most one mutation according to the flags, compute the sum and
the state inside the `with` block, and print the one-line message.
`Except.error` models the exceptions `main` does not catch. -/
def main (r : ReadResult) (args : Args) (now : Int) : Except String String :=
  match PunchClock.init r with
  | .error e => .error e
  | .ok c0 =>
      match (applyFlags c0 args now).sum now with
      | none => .error "ValueError"
      | some w => .ok (message w (applyFlags c0 args now).state)

/-- The table invariant of the data model: at most the positionally
last row may have a missing cell; every earlier row has both the `In`
and the `Out` timestamp present. -/
def tableInvariant (f : List Row) : Prop :=
  ∀ r ∈ f.dropLast, r.inT ≠ none ∧ r.outT ≠ none

/-- The digit characters written by the `%.0f` float format. -/
def digitChar : Nat → Char
  | 0 => '0' | 1 => '1' | 2 => '2' | 3 => '3' | 4 => '4'
  | 5 => '5' | 6 => '6' | 7 => '7' | 8 => '8' | _ => '9'

/-- Whether a character is a decimal digit. -/
def isDigit (c : Char) : Bool :=
  ['0', '1', '2', '3', '4', '5', '6', '7', '8', '9'].contains c

/-- The numeric value of a digit character. -/
def digitVal (c : Char) : Nat := c.toNat - 48

/-- Most-significant-first decimal digits of a natural number,
accumulated with explicit fuel so that the definition computes. -/
def natDigitsCore (fuel n : Nat) (acc : List Char) : List Char :=
  match fuel with
  | 0 => acc
  | fuel' + 1 =>
      if n < 10 then digitChar n :: acc
      else natDigitsCore fuel' (n / 10) (digitChar (n % 10) :: acc)

/-- The decimal digits of a natural number. -/
def natDigits (n : Nat) : List Char := natDigitsCore (n + 1) n []

/-- Reading decimal digits back into a natural number, as
`pd.read_csv` does when it parses a numeric cell. -/
def parseDigits (cs : List Char) : Nat :=
  cs.foldl (fun acc c => acc * 10 + digitVal c) 0

/-- `"%.0f" % t` for an integral float `t`: the decimal digits with a
leading minus sign for negative values, never an exponent and never a
decimal point. -/
def intChars : Int → List Char
  | Int.ofNat n => natDigits n
  | Int.negSucc m => '-' :: natDigits (m + 1)

/-- One serialized cell of `to_csv(float_format="%.0f")`: missing
values are written as the empty field, numbers as plain decimals. -/
def cellChars : Option Int → List Char
  | none => []
  | some t => intChars t

/-- How `pd.read_csv` interprets one cell of the written file: an
empty field is NaN, otherwise an optionally signed decimal number. -/
def parseCell (cs : List Char) : Option Int :=
  if cs = [] then none
  else if cs.head? = some '-' then some (-(parseDigits (cs.drop 1) : Int))
  else some ((parseDigits cs : Int))

/-- `PunchClock.__exit__` (lines 89 to 96): `to_csv(log_path,
index=False, float_format="%.0f")` drops the index labels and writes
one line per row, each cell formatted by `cellChars`. -/
def savedCells (f : List Row) : List (List Char × List Char) :=
  f.map (fun r => (cellChars r.inT, cellChars r.outT))

/-- `__exit__` receives the exception information of the `with` block
as `*_` and ignores it: the same serialization of the full current
frame runs on the normal and on the exceptional exit path. -/
def exitWrite (c : PunchClock) (_excInfo : Option String) :
    List (List Char × List Char) :=
  savedCells c.frame

/-- Reading the written file back: the header line gives the column
names `In` and `Out`, and each cell parses as `parseCell`.  A file
holding only the header parses to a frame with zero rows, not to
`EmptyDataError`. -/
def reload (saved : List (List Char × List Char)) : ReadResult :=
  ReadResult.parsed ["In", "Out"]
    (saved.map (fun p => (parseCell p.1, parseCell p.2)))

/-- The cell values of a frame in positional order, forgetting the
pandas index labels. -/
def rowValues (f : List Row) : List (Option Int × Option Int) :=
  f.map (fun r => (r.inT, r.outT))

/-- The clocked state determined by a list of cell values: `IN`
exactly when the last pair has a missing second component. -/
def pairsState (ps : List (Option Int × Option Int)) : State :=
  match ps.getLast? with
  | some p => if p.2 = none then State.IN else State.OUT
  | none => State.OUT

/-- The total the specification describes for `sum`: the sum over
committed rows of `out - in`. -/
def specSum (f : List Row) : Int :=
  (f.filterMap (fun r =>
    match r.inT, r.outT with
    | some a, some b => some (b - a)
    | _, _ => none)).sum

/-! ### Helper lemmas -/

theorem digitChar_isDigit (d : Nat) : isDigit (digitChar d) = true := by
  match d with
  | 0 | 1 | 2 | 3 | 4 | 5 | 6 | 7 | 8 => rfl
  | (n + 9) => rfl

theorem digitVal_digitChar (d : Nat) (h : d < 10) :
    digitVal (digitChar d) = d := by
  interval_cases d <;> rfl

theorem natDigitsCore_append (fuel : Nat) :
    ∀ (n : Nat) (acc : List Char),
      natDigitsCore fuel n acc = natDigitsCore fuel n [] ++ acc := by
  induction fuel with
  | zero => intro n acc; rfl
  | succ f ih =>
      intro n acc
      by_cases h : n < 10
      · simp [natDigitsCore, h]
      · simp only [natDigitsCore, if_neg h]
        rw [ih (n / 10) (digitChar (n % 10) :: acc),
          ih (n / 10) [digitChar (n % 10)]]
        simp

theorem natDigitsCore_fuel (fuel₁ : Nat) :
    ∀ (fuel₂ n : Nat) (acc : List Char), n < fuel₁ → n < fuel₂ →
      natDigitsCore fuel₁ n acc = natDigitsCore fuel₂ n acc := by
  induction fuel₁ with
  | zero => intro fuel₂ n acc h1 _; omega
  | succ f ih =>
      intro fuel₂ n acc h1 h2
      match fuel₂, h2 with
      | f₂ + 1, _ =>
        by_cases h : n < 10
        · simp [natDigitsCore, h]
        · simp only [natDigitsCore, if_neg h]
          exact ih f₂ (n / 10) _ (by omega) (by omega)

theorem natDigits_rec (n : Nat) :
    natDigits n = if n < 10 then [digitChar n]
      else natDigits (n / 10) ++ [digitChar (n % 10)] := by
  by_cases h : n < 10
  · simp [natDigits, natDigitsCore, h]
  · rw [if_neg h]
    have h1 : natDigits n = natDigitsCore n (n / 10) [digitChar (n % 10)] := by
      simp [natDigits, natDigitsCore, h]
    rw [h1, natDigitsCore_append]
    congr 1
    exact natDigitsCore_fuel n (n / 10 + 1) (n / 10) [] (by omega) (by omega)

theorem parseDigits_append (cs : List Char) (c : Char) :
    parseDigits (cs ++ [c]) = parseDigits cs * 10 + digitVal c := by
  simp [parseDigits, List.foldl_append]

theorem parseDigits_natDigits (n : Nat) : parseDigits (natDigits n) = n := by
  induction n using Nat.strong_induction_on with
  | _ n ih =>
      rw [natDigits_rec]
      by_cases h : n < 10
      · simp only [if_pos h]
        simp [parseDigits, digitVal_digitChar n h]
      · simp only [if_neg h]
        rw [parseDigits_append, ih (n / 10) (by omega),
          digitVal_digitChar (n % 10) (by omega)]
        omega

theorem natDigits_all_digit (n : Nat) :
    ∀ c ∈ natDigits n, isDigit c = true := by
  induction n using Nat.strong_induction_on with
  | _ n ih =>
      rw [natDigits_rec]
      by_cases h : n < 10
      · simp only [if_pos h]
        intro c hc
        simp only [List.mem_singleton] at hc
        subst hc
        exact digitChar_isDigit n
      · simp only [if_neg h]
        intro c hc
        rw [List.mem_append] at hc
        rcases hc with hc | hc
        · exact ih (n / 10) (by omega) c hc
        · simp only [List.mem_singleton] at hc
          subst hc
          exact digitChar_isDigit (n % 10)

theorem natDigits_ne_nil (n : Nat) : natDigits n ≠ [] := by
  rw [natDigits_rec]
  by_cases h : n < 10 <;> simp [h]

theorem head_natDigits_ne_minus (n : Nat) :
    (natDigits n).head? ≠ some '-' := by
  cases hd : natDigits n with
  | nil => simp
  | cons c t =>
      have hc : isDigit c = true := by
        refine natDigits_all_digit n c ?_
        rw [hd]
        exact List.mem_cons_self c t
      simp only [List.head?_cons, ne_eq, Option.some.injEq]
      intro h
      subst h
      exact absurd hc (by decide)

theorem parseCell_cellChars (v : Option Int) : parseCell (cellChars v) = v := by
  match v with
  | none => rfl
  | some (Int.ofNat n) =>
      show parseCell (natDigits n) = some (Int.ofNat n)
      simp only [parseCell, if_neg (natDigits_ne_nil n),
        if_neg (head_natDigits_ne_minus n), parseDigits_natDigits]
      rfl
  | some (Int.negSucc m) =>
      show parseCell ('-' :: natDigits (m + 1)) = some (Int.negSucc m)
      simp only [parseCell, List.head?_cons, if_pos rfl, List.drop_succ_cons,
        List.drop_zero, parseDigits_natDigits, reduceCtorEq, if_neg,
        Option.some.injEq]
      rw [Int.negSucc_eq]
      push_cast
      ring_nf

theorem rowValues_labelRowsFrom (ps : List (Option Int × Option Int)) :
    ∀ i, rowValues (labelRowsFrom i ps) = ps := by
  induction ps with
  | nil => intro i; rfl
  | cons p t ih =>
      intro i
      simp only [labelRowsFrom, rowValues, List.map_cons]
      rw [show (List.map (fun r => (r.inT, r.outT)) (labelRowsFrom (i + 1) t))
          = rowValues (labelRowsFrom (i + 1) t) from rfl, ih (i + 1)]

theorem rowValues_labelRows (ps : List (Option Int × Option Int)) :
    rowValues (labelRows ps) = ps :=
  rowValues_labelRowsFrom ps 0

theorem derivedState_eq_pairsState (f : List Row) :
    derivedState f = pairsState (rowValues f) := by
  unfold derivedState pairsState rowValues
  rw [List.getLast?_map]
  cases f.getLast? with
  | none => rfl
  | some r => rfl

theorem reload_savedCells (f : List Row) :
    reload (savedCells f) = ReadResult.parsed ["In", "Out"] (rowValues f) := by
  unfold reload savedCells rowValues
  congr 1
  induction f with
  | nil => rfl
  | cons r t ih =>
      simp only [List.map_cons, List.map_map] at *
      rw [ih]
      simp [parseCell_cellChars]

theorem sumCommitted_foldl (f : List Row) : ∀ acc : Int,
    f.foldl
      (fun acc r =>
        match r.inT, r.outT with
        | some a, some b => acc + (b - a)
        | _, _ => acc)
      acc = acc + specSum f := by
  induction f with
  | nil => intro acc; simp [specSum]
  | cons r t ih =>
      intro acc
      simp only [List.foldl_cons, specSum, List.filterMap_cons] at *
      cases hin : r.inT with
      | none => simp only [hin]; rw [ih acc]
      | some a =>
          cases hout : r.outT with
          | none => simp only [hout]; rw [ih acc]
          | some b =>
              simp only [hout, List.sum_cons]
              rw [ih (acc + (b - a))]
              ring

theorem sumCommitted_eq_specSum (f : List Row) : sumCommitted f = specSum f := by
  unfold sumCommitted
  rw [sumCommitted_foldl f 0]
  ring

theorem timedeltaStr_eq_specHms (t : Int) (h0 : 0 ≤ t) (h1 : t < 86400) :
    timedeltaStr t = specHmsStr t := by
  unfold timedeltaStr specHmsStr
  have hdays : t / 86400 = 0 := by omega
  have hrem : t % 86400 = t := by omega
  have hh : t / 60 / 60 = t / 3600 := by omega
  have hmm : t / 60 % 60 = t % 3600 / 60 := by omega
  rw [hrem, hh, hmm, if_pos hdays]
  simp

theorem main_ok_shape (r : ReadResult) (a : Args) (now : Int) (s : String)
    (h : main r a now = Except.ok s) :
    ∃ w st, s = message w st := by
  unfold main at h
  cases hinit : PunchClock.init r with
  | error e => rw [hinit] at h; exact absurd h (by simp)
  | ok c0 =>
      rw [hinit] at h
      simp only at h
      cases hsum : (applyFlags c0 a now).sum now with
      | none => rw [hsum] at h; exact absurd h (by simp)
      | some w =>
          rw [hsum] at h
          simp only [Except.ok.injEq] at h
          exact ⟨w, (applyFlags c0 a now).state, h.symm⟩

theorem mem_intChars (t : Int) :
    ∀ ch ∈ intChars t, ch = '-' ∨ isDigit ch = true := by
  match t with
  | Int.ofNat n =>
      intro ch h
      right
      exact natDigits_all_digit n ch h
  | Int.negSucc m =>
      intro ch h
      rcases List.mem_cons.mp h with h | h
      · left; exact h
      · right; exact natDigits_all_digit (m + 1) ch h

theorem intChars_ne_nil (t : Int) : intChars t ≠ [] := by
  match t with
  | Int.ofNat n => exact natDigits_ne_nil n
  | Int.negSucc m => simp [intChars]

/-! ### Claims -/

/-- C1: the claim says that on an empty table, `punch_in` followed by
`punch_out` in the same session yields exactly one committed row whose
duration is the elapsed time.  The code disagrees: `punch_in` appends
the open row under pandas label `-1`, and `punch_out` then writes to
label `shape[0] - 1 = 0`, which does not exist, so pandas appends a
second row `(NaN, now)` instead of committing the open one.  At
punch-in time 10 and punch-out time 20 the table ends with two rows,
the first still open and the second with no `In` cell, and the
committed sum is 0 rather than 10. -/
theorem C1_punch_in_then_out_code_eval :
    (PunchClock.punch_out (PunchClock.punch_in ⟨[], State.OUT⟩ 10) 20).frame
        = [⟨-1, some 10, none⟩, ⟨0, none, some 20⟩] ∧
    (PunchClock.punch_out
        (PunchClock.punch_in ⟨[], State.OUT⟩ 10) 20).frame.length ≠ 1 ∧
    sumCommitted
        (PunchClock.punch_out (PunchClock.punch_in ⟨[], State.OUT⟩ 10) 20).frame
      = 0 := by
  refine ⟨by decide, by decide, by decide⟩

/-- C2: the claim says every operation preserves the invariant that
only the last row may lack an `Out` cell.  `punch_in` on a fresh clock
does preserve it, but the subsequent `punch_out` appends a fresh row
after the still-open one (the pandas label mismatch of C1), leaving a
non-last row with a missing `Out` cell: the invariant is violated on a
reachable state. -/
theorem C2_invariant_code_eval :
    tableInvariant (PunchClock.punch_in ⟨[], State.OUT⟩ 10).frame ∧
    ¬ tableInvariant
        (PunchClock.punch_out (PunchClock.punch_in ⟨[], State.OUT⟩ 10) 20).frame := by
  unfold tableInvariant
  constructor
  · decide
  · decide

/-- C3, counterexample: the claim says the printed duration has no
days component, so that a 25-hour total prints as `25:00:00`.  On a
log holding one committed row of 90000 seconds (25 hours), `main`
prints `1 day, 1:00:00` instead, because Python `str(timedelta)`
renders whole days separately. -/
theorem C3_counterexample :
    main (ReadResult.parsed ["In", "Out"] [(some 0, some 90000)])
        ⟨false, false, false⟩ 100000
      = Except.ok "You have worked 1 day, 1:00:00; you are clocked out." ∧
    ("You have worked 1 day, 1:00:00; you are clocked out." : String)
      ≠ "You have worked 25:00:00; you are clocked out." := by
  exact ⟨rfl, by decide⟩

/-- C3, amended: every successful invocation of `main` prints exactly
one line `You have worked <T>; you are clocked <in|out>.`; the
duration `T` agrees with the plain hours:minutes:seconds rendering
exactly for totals below 24 hours, while totals of a day or more are
rendered with a days prefix, e.g. 90000 seconds as `1 day, 1:00:00`
rather than `25:00:00`. -/
theorem C3_message_format :
    (∀ (r : ReadResult) (a : Args) (now : Int) (s : String),
        main r a now = Except.ok s → ∃ w st, s = message w st) ∧
    (∀ t : Int, 0 ≤ t → t < 86400 → timedeltaStr t = specHmsStr t) ∧
    timedeltaStr 90000 = "1 day, 1:00:00" ∧
    specHmsStr 90000 = "25:00:00" := by
  exact ⟨main_ok_shape, timedeltaStr_eq_specHms, rfl, rfl⟩

/-- Witness for C3: the format theorem applied at the 2-hour total of
the scenario in the specification. -/
theorem C3_message_format_witness :
    timedeltaStr 7200 = specHmsStr 7200 ∧
    (∃ w st,
      "You have worked 2:00:00; you are clocked out." = message w st) := by
  constructor
  · exact C3_message_format.2.1 7200 (by decide) (by decide)
  · exact C3_message_format.1
      (ReadResult.parsed ["In", "Out"] [(some 0, some 7200)])
      ⟨false, false, false⟩ 100000
      "You have worked 2:00:00; you are clocked out." rfl

/-- C4: `sum` returns the sum over committed rows of `out - in`, plus
`now - in` of the open row when the state is `IN`; an empty table sums
to zero; `sum` is a pure function of the clock, so on an `OUT` clock
two calls at different times return the same value; and the concrete
scenario of the specification, a single committed row spanning 7200
seconds, yields a `2:00:00` duration. -/
theorem C4_sum_spec :
    (∀ (c : PunchClock) (now : Int), c.state = State.OUT →
        c.sum now = some (specSum c.frame)) ∧
    (∀ (c : PunchClock) (now t : Int), c.state = State.IN →
        lastIn c.frame = some t →
        c.sum now = some (specSum c.frame + (now - t))) ∧
    (∀ (c : PunchClock) (n₁ n₂ : Int), c.state = State.OUT →
        c.sum n₁ = c.sum n₂) ∧
    (∀ now : Int, PunchClock.sum ⟨[], State.OUT⟩ now = some 0) ∧
    (∀ now : Int,
        PunchClock.sum ⟨[⟨0, some 1513600731, some 1513607931⟩], State.OUT⟩ now
          = some 7200) ∧
    timedeltaStr 7200 = "2:00:00" := by
  refine ⟨?_, ?_, ?_, ?_, ?_, rfl⟩
  · intro c now h
    simp [PunchClock.sum, h, sumCommitted_eq_specSum]
  · intro c now t h hl
    simp [PunchClock.sum, h, hl, sumCommitted_eq_specSum]
  · intro c n₁ n₂ h
    simp [PunchClock.sum, h]
  · intro now; rfl
  · intro now; rfl

/-- Witness for C4: the sum theorem applied to a concrete committed
clock and a concrete open clock. -/
theorem C4_sum_spec_witness :
    PunchClock.sum ⟨[⟨0, some 3, some 10⟩], State.OUT⟩ 99
        = some (specSum [⟨0, some 3, some 10⟩]) ∧
    PunchClock.sum ⟨[⟨0, some 5, none⟩], State.IN⟩ 42
        = some (specSum [⟨0, some 5, none⟩] + (42 - 5)) := by
  constructor
  · exact C4_sum_spec.1 ⟨[⟨0, some 3, some 10⟩], State.OUT⟩ 99 rfl
  · exact C4_sum_spec.2.1 ⟨[⟨0, some 5, none⟩], State.IN⟩ 42 5 rfl rfl

/-- C5, counterexample: the claim says a storage file that is
unparseable as the expected two-column schema also initializes an
empty table instead of failing.  A file that parses as a CSV with
columns `A` and `B` reaches `self._frame[State.OUT.value]` and raises
`KeyError`, so construction fails instead of falling back. -/
theorem C5_counterexample :
    PunchClock.init (ReadResult.parsed ["A", "B"] [(some 1, some 2)])
      = Except.error "KeyError: Out" := rfl

/-- C5, amended: construction falls back to an empty table exactly
when the storage resource does not exist or is empty; a fresh or empty
log then has state `OUT` and a zero-duration sum.  A file that parses
but lacks the expected `Out` column instead raises (`KeyError`),
matching the malformed-storage taxonomy of the error-handling section
of the specification. -/
theorem C5_load_fallback :
    PunchClock.init ReadResult.missing = Except.ok ⟨[], State.OUT⟩ ∧
    PunchClock.init ReadResult.emptyData = Except.ok ⟨[], State.OUT⟩ ∧
    (∀ (cols : List String) (rows : List (Option Int × Option Int)),
        cols.contains "Out" = false →
        PunchClock.init (ReadResult.parsed cols rows)
          = Except.error "KeyError: Out") ∧
    (∀ now : Int, PunchClock.sum ⟨[], State.OUT⟩ now = some 0) ∧
    timedeltaStr 0 = "0:00:00" := by
  refine ⟨rfl, rfl, ?_, fun _ => rfl, rfl⟩
  intro cols rows h
  show (if cols.contains "Out" then
      (Except.ok ⟨labelRows rows, derivedState (labelRows rows)⟩
        : Except String PunchClock)
    else Except.error "KeyError: Out") = Except.error "KeyError: Out"
  rw [h]
  simp

/-- Witness for C5: the load theorem applied to a parsed file with a
single wrong column. -/
theorem C5_load_fallback_witness :
    PunchClock.init (ReadResult.parsed ["A"] []) = Except.error "KeyError: Out" :=
  C5_load_fallback.2.2.1 ["A"] [] rfl

/-- C6: `reset` yields an empty table and state `OUT` from every prior
table and state; it is effective regardless of the prior state. -/
theorem C6_reset_always_clears :
    ∀ c : PunchClock,
      c.reset.frame = [] ∧ c.reset.state = State.OUT ∧
        c.reset = ⟨[], State.OUT⟩ :=
  fun _ => ⟨rfl, rfl, rfl⟩

/-- C7: for every clock whose stored state agrees with the state
derived from its table, saving the table on context exit and loading
it back in a new construction succeeds and reproduces the same cell
values, the same stored state, and the same derived state; only the
pandas index labels are renumbered. -/
theorem C7_save_load_roundtrip :
    ∀ c : PunchClock, c.state = derivedState c.frame →
      ∃ c' : PunchClock,
        PunchClock.init (reload (savedCells c.frame)) = Except.ok c' ∧
        rowValues c'.frame = rowValues c.frame ∧
        c'.state = c.state ∧
        derivedState c'.frame = derivedState c.frame := by
  intro c h
  refine ⟨⟨labelRows (rowValues c.frame),
    derivedState (labelRows (rowValues c.frame))⟩, ?_, ?_, ?_, ?_⟩
  · rw [reload_savedCells]
    have hc : (["In", "Out"] : List String).contains "Out" = true := by decide
    simp [PunchClock.init, hc]
  · exact rowValues_labelRows (rowValues c.frame)
  · show derivedState (labelRows (rowValues c.frame)) = c.state
    rw [derivedState_eq_pairsState, rowValues_labelRows, h,
      derivedState_eq_pairsState]
  · show derivedState (labelRows (rowValues c.frame)) = derivedState c.frame
    rw [derivedState_eq_pairsState, rowValues_labelRows,
      derivedState_eq_pairsState]

/-- Witness for C7: the round-trip theorem applied to a consistent
clocked-in log with one open row. -/
theorem C7_save_load_roundtrip_witness :
    ∃ c' : PunchClock,
      PunchClock.init (reload (savedCells [⟨0, some 5, none⟩])) = Except.ok c' ∧
      rowValues c'.frame = rowValues [⟨0, some 5, none⟩] ∧
      c'.state = State.IN ∧
      derivedState c'.frame = derivedState [⟨0, some 5, none⟩] :=
  C7_save_load_roundtrip ⟨[⟨0, some 5, none⟩], State.IN⟩ (by decide)

/-- C8: wrong-state transitions are no-ops: `punch_in` while already
`IN` returns the clock unchanged (state and table identical), and
`punch_out` while already `OUT` likewise returns it unchanged. -/
theorem C8_wrong_state_noop :
    ∀ (c : PunchClock) (now : Int),
      (c.state = State.IN → c.punch_in now = c) ∧
      (c.state = State.OUT → c.punch_out now = c) := by
  intro c now
  constructor
  · intro h
    simp [PunchClock.punch_in, h]
  · intro h
    simp [PunchClock.punch_out, h]

/-- Witness for C8: the no-op theorem applied to a clocked-in clock
and to a clocked-out clock. -/
theorem C8_wrong_state_noop_witness :
    PunchClock.punch_in ⟨[⟨0, some 5, none⟩], State.IN⟩ 42
        = ⟨[⟨0, some 5, none⟩], State.IN⟩ ∧
    PunchClock.punch_out ⟨[], State.OUT⟩ 42 = ⟨[], State.OUT⟩ := by
  constructor
  · exact (C8_wrong_state_noop ⟨[⟨0, some 5, none⟩], State.IN⟩ 42).1 rfl
  · exact (C8_wrong_state_noop ⟨[], State.OUT⟩ 42).2 rfl

/-- C9: on scoped release, `__exit__` ignores the exception
information it is handed, so the same full-table serialization runs on
the normal and on the exceptional exit path; cells of present
timestamps are written as an optional minus sign followed by decimal
digits, never a decimal point or an exponent, and the missing `Out`
cell of an open row is written as the empty field. -/
theorem C9_exit_serialization :
    (∀ (c : PunchClock) (e₁ e₂ : Option String),
        exitWrite c e₁ = savedCells c.frame ∧ exitWrite c e₁ = exitWrite c e₂) ∧
    cellChars none = [] ∧
    (∀ t : Int, cellChars (some t) ≠ []) ∧
    (∀ t : Int, ∀ ch ∈ cellChars (some t), ch = '-' ∨ isDigit ch = true) ∧
    (∀ t : Int, '.' ∉ cellChars (some t) ∧ 'e' ∉ cellChars (some t)) := by
  refine ⟨fun c e₁ e₂ => ⟨rfl, rfl⟩, rfl, fun t => intChars_ne_nil t,
    fun t => mem_intChars t, ?_⟩
  intro t
  constructor
  · intro hm
    rcases mem_intChars t '.' hm with h | h
    · exact absurd h (by decide)
    · exact absurd h (by decide)
  · intro hm
    rcases mem_intChars t 'e' hm with h | h
    · exact absurd h (by decide)
    · exact absurd h (by decide)

/-- Witness for C9: the serialization theorem applied to a concrete
timestamp cell and character. -/
theorem C9_exit_serialization_witness :
    '5' = '-' ∨ isDigit '5' = true :=
  C9_exit_serialization.2.2.2.1 5 '5' (by decide)

/-- C10: the claim says the stored state attribute always agrees with
the state derived from the table.  Starting from an empty table,
`punch_in` at 10, `punch_out` at 20 (which mis-appends, see C1) and
`punch_in` at 30 reuse pandas label `-1`, so the third call replaces
the positionally first row instead of appending: the stored state
becomes `IN` while the positionally last row has a present `Out`
cell, so the derived state is `OUT`. -/
theorem C10_state_consistency_code_eval :
    (PunchClock.punch_in
        (PunchClock.punch_out (PunchClock.punch_in ⟨[], State.OUT⟩ 10) 20)
        30).state = State.IN ∧
    derivedState (PunchClock.punch_in
        (PunchClock.punch_out (PunchClock.punch_in ⟨[], State.OUT⟩ 10) 20)
        30).frame = State.OUT ∧
    (PunchClock.punch_in
        (PunchClock.punch_out (PunchClock.punch_in ⟨[], State.OUT⟩ 10) 20)
        30).frame = [⟨-1, some 30, none⟩, ⟨0, none, some 20⟩] := by
  refine ⟨by decide, by decide, by decide⟩

end punch_clock
